import Mathlib

set_option maxHeartbeats 1000000
set_option linter.unusedVariables false

/-! Shallow embedding of the MIScnn sample transformation pipeline: the
`Mirroring` subfunction (miscnn/processing/subfunctions/mirroring.py) and
the `SampleSplitting` subfunction
(miscnn/processing/subfunctions/sample_splitting.py), together with the
verification of their specified properties.  Arrays are modelled as a
shape plus a total indexing function; fallible numpy operations return
`Except String`. -/

variable {α : Type} {β : Type} {γ : Type} {σ : Type} {ι : Type}

/-- An n-dimensional numeric array: a shape together with the value at each
index vector (a numpy ndarray seen through integer indexing). -/
structure NDArray (α : Type) where
  shape : List Nat
  data : List Nat → α

/-- All valid index vectors of a given shape, in row-major order. -/
def allIndices : List Nat → List (List Nat)
  | [] => [[]]
  | n :: rest => (List.range n).flatMap (fun i => (allIndices rest).map (fun t => i :: t))

/-- Bounds check: the index vector has the rank of the shape and every
component is within the corresponding extent. -/
def idxOk : List Nat → List Nat → Bool
  | [], [] => true
  | s :: ss, v :: vs => decide (v < s) && idxOk ss vs
  | _, _ => false

/-- Executable duplicate check used by the np.flip model. -/
def nodupB : List Nat → Bool
  | [] => true
  | x :: xs => !(decide (x ∈ xs)) && nodupB xs

/-- Index reflection realising np.flip: component `i` of the index is
reflected within the corresponding extent exactly when axis `i` is flipped. -/
def reflectFrom (axes : List Nat) : Nat → List Nat → List Nat → List Nat
  | _, [], _ => []
  | _, _ :: _, [] => []
  | i, s :: ss, v :: vs =>
      (if axes.contains i then s - 1 - v else v) :: reflectFrom axes (i + 1) ss vs

/-- The array obtained by flipping along the given axes; the shape is
unchanged and reading index `idx` reads the reflected index of the source. -/
def flipArr (axes : List Nat) (x : NDArray α) : NDArray α :=
  ⟨x.shape, fun idx => x.data (reflectFrom axes 0 x.shape idx)⟩

/-- Model of numpy.flip over a list of axes: raises AxisError when an axis
is not below the array rank, ValueError on a repeated axis, and otherwise
reverses the array along each listed axis. -/
def npFlip (axes : List Nat) (x : NDArray α) : Except String (NDArray α) :=
  if axes.any (fun a => decide (x.shape.length ≤ a)) then
    Except.error "AxisError: axis is out of bounds"
  else if !(nodupB axes) then
    Except.error "ValueError: repeated axis in flip"
  else
    Except.ok (flipArr axes x)

/-- Model of numpy.expand_dims(x, axis=0): prepend a batch axis of size 1. -/
def expandDims0 (x : NDArray α) : NDArray α :=
  ⟨1 :: x.shape, fun idx => x.data idx.tail⟩

/-- Model of numpy.squeeze(x, axis=0): remove the leading axis, which must
have extent exactly 1, else ValueError. -/
def npSqueeze0 (x : NDArray α) : Except String (NDArray α) :=
  match x.shape with
  | 1 :: rest => Except.ok ⟨rest, fun idx => x.data (0 :: idx)⟩
  | _ => Except.error "ValueError: cannot select an axis to squeeze out which has size not equal to one"

/-- Model of numpy.stack(l, axis=0): requires a non-empty list of arrays of
equal shape and produces the batched array whose slice `i` is the i-th input. -/
def npStack (l : List (NDArray α)) : Except String (NDArray α) :=
  match l with
  | [] => Except.error "ValueError: need at least one array to stack"
  | x :: xs =>
      if xs.all (fun y => y.shape == x.shape) then
        Except.ok ⟨(x :: xs).length :: x.shape, fun idx => ((x :: xs).getD (idx.headD 0) x).data idx.tail⟩
      else
        Except.error "ValueError: all input arrays must have the same shape"

/-- Model of numpy.random.randint(low, high) with the random draw made an
explicit argument: requires low < high, else ValueError. -/
def npRandint (low high draw : Nat) : Except String Nat :=
  if low < high then Except.ok (low + draw % (high - low))
  else Except.error "ValueError: low is greater than or equal to high"

/-- Modelled from the spec: crop_patch from miscnn.utils.patch_operations
(imported by sample_splitting.py but not under src/).  The spec contract is
that the slicer returned by pad is the crop region that exactly undoes the
padding; the model applies a per-axis (start, stop) slicer. -/
def crop_patch (pred : NDArray α) (slicer : List (Nat × Nat)) : NDArray α :=
  ⟨slicer.map (fun p => p.2 - p.1), fun idx => pred.data (List.zipWith (fun i p => i + p.1) idx slicer)⟩

/-- Modelled from the spec: concat_matrices from
miscnn.utils.patch_operations (imported by sample_splitting.py but not
under src/).  The spec contract fixes that the reassembled image has the
recorded original shape; only totality and the output shape are relied on
by the claims, so the voxel mapping is left as a direct read. -/
def concat_matrices (patches : NDArray α) (image_size window overlap : List Nat) (three_dim : Bool) : NDArray α :=
  ⟨image_size, fun idx => patches.data idx⟩

/-- Boolean error test on `Except`. -/
def isFailure : Except String β → Bool
  | Except.error _ => true
  | Except.ok _ => false

/-- The value stored under the "mirroring" key of a sample's extended
metadata: Mirroring.preprocessing writes a bare axis index on the
combine=false path and a list of axes on the combine=true path. -/
inductive MirrorVal : Type
  | ax (a : Nat)
  | axes (l : List Nat)
deriving DecidableEq

/-- A sample flowing through the pipeline: image tensor, optional
segmentation tensor, the stable identity (sample.index) and the extended
metadata (of which only the "mirroring" entry is used by these
subfunctions). -/
structure Sample (α : Type) where
  img_data : NDArray α
  seg_data : Option (NDArray α) := none
  index : Nat := 0
  extended : Option MirrorVal := none

/-- Sequencing of a fallible computation over a list, collecting the
results in order (the Python loop appending to `results`, with any raised
exception propagating). -/
def collectE (f : β → Except String γ) : List β → Except String (List γ)
  | [] => Except.ok []
  | a :: l => do
      let b ← f a
      let bs ← collectE f l
      Except.ok (b :: bs)

namespace Mirroring

/-- Translation of `[i for i, val in enumerate(self.axisList) if val]`
(mirroring.py line 68): the indices whose flag is true. -/
def mirrorAxisesOf (axisList : List Bool) : List Nat :=
  (axisList.enum.filter (fun p => p.2)).map (fun p => p.1)

/-- Translation of itertools.combinations: all r-element subsequences of
the list, in the lexicographic order itertools documents. -/
def combinations : List β → Nat → List (List β)
  | _, 0 => [[]]
  | [], _ + 1 => []
  | x :: xs, r + 1 => ((combinations xs r).map (fun t => x :: t)) ++ combinations xs (r + 1)

/-- Translation of
`chain.from_iterable(combinations(mirrorAxises, r) for r in range(len(mirrorAxises)+1))`
(mirroring.py line 77): all subsets enumerated by increasing size and
lexicographically within each size. -/
def subsetsBySize (l : List β) : List (List β) :=
  (List.range (l.length + 1)).flatMap (combinations l)

/-- Translation of Mirroring.preprocessing (mirroring.py lines 63-85).
With combine off the original sample is emitted first, then one clone per
flagged axis flipped along that axis and tagged with the bare axis index;
with combine on one clone per subset of the flagged axes is emitted,
flipped jointly along the subset and tagged with the subset as a list. -/
def preprocessing (axisList : List Bool) (combineMirroring : Bool) (s : Sample α) :
    Except String (List (Sample α)) :=
  let image := s.img_data
  let mirrorAxises := mirrorAxisesOf axisList
  if !combineMirroring then
    (collectE (fun a =>
        (npFlip [a] image).map (fun im =>
          { s with img_data := im, extended := some (MirrorVal.ax a) })) mirrorAxises).map
      (fun clones => s :: clones)
  else
    collectE (fun t =>
        (npFlip t image).map (fun im =>
          { s with img_data := im, extended := some (MirrorVal.axes t) })) (subsetsBySize mirrorAxises)

/-- Translation of Mirroring.postprocessing (mirroring.py lines 91-96):
with no "mirroring" metadata the prediction is returned unchanged; with a
recorded list the prediction is flipped back along `tuple(list)`; with a
recorded bare int, `tuple(int)` raises TypeError before np.flip runs. -/
def postprocessing (s : Sample α) (prediction : NDArray α) : Except String (NDArray α) :=
  match s.extended with
  | some (MirrorVal.ax _) => Except.error "TypeError: int object is not iterable"
  | some (MirrorVal.axes l) => npFlip l prediction
  | none => Except.ok prediction

end Mirroring

/-- The three geometric strategies accepted by SampleSplitting.__init__
(sample_splitting.py line 44). -/
inductive Method : Type
  | fullimage
  | patchwiseCrop
  | patchwiseGrid
deriving DecidableEq

/-- Configuration fixed at SampleSplitting construction
(sample_splitting.py lines 42-64). -/
structure SplitCfg : Type where
  three_dim : Bool
  method : Method
  patch_shape : List Nat
  patchwise_overlap : List Nat

/-- A value stored in the splitter's cache dictionary: either a recorded
original shape (under a "shape_i" key) or a padding-inverse slicer (under a
"slicer_i" key). -/
inductive CacheVal : Type
  | vshape (s : List Nat)
  | vslicer (sl : List (Nat × Nat))
deriving DecidableEq

/-- The splitter's `self.cache` dictionary (string keys, one binding per
key). -/
abbrev Cache : Type := List (String × CacheVal)

/-- Dictionary membership / read: the value bound to the key, if any. -/
def dictLookup (c : Cache) (k : String) : Option CacheVal :=
  (c.find? (fun e => e.1 == k)).map (fun e => e.2)

/-- Python dict.pop with no default: returns the bound value and the
dictionary without that key, raising KeyError when the key is absent. -/
def dictPop (c : Cache) (k : String) : Except String (CacheVal × Cache) :=
  match dictLookup c k with
  | some v => Except.ok (v, c.filter (fun e => !(e.1 == k)))
  | none => Except.error ("KeyError: " ++ k)

/-- The cache key `"shape_" + str(i)`. -/
def shapeKey (i : Nat) : String := "shape_" ++ toString i

/-- The cache key `"slicer_" + str(i)`. -/
def slicerKey (i : Nat) : String := "slicer_" ++ toString i

/-- The caller-owned data augmentation driver (external collaborator),
late-bound via set_data_aug: a training transform over both tensors and an
inference-only image transform. -/
structure DataAug (α : Type) : Type where
  run : NDArray α → NDArray α → NDArray α × NDArray α
  run_infaug : NDArray α → NDArray α

namespace SampleSplitting

/-- Translation of SampleSplitting.postprocessing (sample_splitting.py
lines 88-103), with the cache passed explicitly.  For a patchwise method
the recorded slicer (if any) is cropped off, the recorded shape is popped
(KeyError when absent) and the patches are reassembled; for fullimage the
leading batch axis is squeezed off.  The function body never executes a
return statement, so the Python function returns None: the `Option` in the
result is that returned value, and it is always `none` on success. -/
def postprocessing (cfg : SplitCfg) (cache : Cache) (index : Nat) (prediction : NDArray α) :
    Except String (Cache × Option (NDArray α)) :=
  match cfg.method with
  | Method.patchwiseCrop | Method.patchwiseGrid =>
      let step1 : Except String (NDArray α) :=
        match dictLookup cache (slicerKey index) with
        | some (CacheVal.vslicer sl) => Except.ok (crop_patch prediction sl)
        | some (CacheVal.vshape _) => Except.error "TypeError: shape entry used as slicer"
        | none => Except.ok prediction
      match step1 with
      | Except.error e => Except.error e
      | Except.ok pred1 =>
          match dictPop cache (shapeKey index) with
          | Except.error e => Except.error e
          | Except.ok (CacheVal.vshape seg_shape, cache2) =>
              let reassembled := concat_matrices pred1 seg_shape cfg.patch_shape
                cfg.patchwise_overlap cfg.three_dim
              Except.ok (cache2, none)
          | Except.ok (CacheVal.vslicer _, _) => Except.error "TypeError: slicer entry used as shape"
  | Method.fullimage =>
      match npSqueeze0 prediction with
      | Except.ok squeezed => Except.ok (cache, none)
      | Except.error e => Except.error e

/-- Cache effect of SampleSplitting.preprocessing (sample_splitting.py
lines 72-83): the fullimage analysis and the training-mode patchwise-crop
analysis never touch the cache; every other call reaches the grid path,
where a non-training call first executes
`self.cache["shape_" + str(index)] = sample.img_data.shape` whose name
`index` is not defined anywhere in scope, raising NameError, and a
training call runs the grid analysis, which writes no cache entry in
training mode.  The tensor transformations themselves are modelled
separately (analysis_fullimage, analysis_patchwise_grid_train,
analysis_patchwise_crop_skip). -/
def preprocessing (cfg : SplitCfg) (cache : Cache) (training : Bool) : Except String Cache :=
  match cfg.method, training with
  | Method.fullimage, _ => Except.ok cache
  | Method.patchwiseCrop, true => Except.ok cache
  | _, _ =>
      if !training then Except.error "NameError: name index is not defined"
      else Except.ok cache

/-- Python `del l[i]`. -/
def delAt (l : List β) (i : Nat) : List β := l.take i ++ l.drop (i + 1)

/-- Translation of the blank-skipping loop (sample_splitting.py lines
123-127 and 162-166): `for i in reversed(range(0, len(patches_seg)))`,
deleting index i from both lists when the segmentation patch is blank.
The first argument below is the number of indices still to visit, so the
loop is entered with the length of the segmentation patch list. -/
def skipRev (blank : NDArray α → Bool) :
    Nat → List (NDArray α) → List (NDArray α) → List (NDArray α) × List (NDArray α)
  | 0, patches_img, patches_seg => (patches_img, patches_seg)
  | n + 1, patches_img, patches_seg =>
      match patches_seg[n]? with
      | some p =>
          if blank p then skipRev blank n (delAt patches_img n) (delAt patches_seg n)
          else skipRev blank n patches_img patches_seg
      | none => skipRev blank n patches_img patches_seg

/-- Translation of `not np.any(patches_seg[i][...,self.patchwise_skip_class] != 1)`
(sample_splitting.py lines 125 and 164): every voxel of the skip_class
channel of the patch equals 1. -/
def isBlank [One α] [DecidableEq α] (skip_class : Nat) (p : NDArray α) : Bool :=
  (allIndices p.shape.dropLast).all (fun sp => decide (p.data (sp ++ [skip_class]) = 1))

/-- Translation of the training path of SampleSplitting.analysis_patchwise_grid
(sample_splitting.py lines 109-130): the patch lists produced by the
external slice_matrix are taken as inputs; blank patches are discarded in
lock-step when skip_blanks is on, and the surviving patches are stacked
into leading-batch-axis tensors.  Padding and the augmentation driver,
which both preserve the batch count, are outside this stage. -/
def analysis_patchwise_grid_train [One α] [DecidableEq α] (skip_blanks : Bool) (skip_class : Nat)
    (patches_img patches_seg : List (NDArray α)) : Except String (NDArray α × NDArray α) :=
  let pr := if skip_blanks then
      skipRev (isBlank skip_class) patches_seg.length patches_img patches_seg
    else (patches_img, patches_seg)
  match npStack pr.1, npStack pr.2 with
  | Except.ok img_data, Except.ok seg_data => Except.ok (img_data, seg_data)
  | Except.error e, _ => Except.error e
  | _, Except.error e => Except.error e

/-- Translation of the skip_blanks branch of SampleSplitting.analysis_patchwise_crop
(sample_splitting.py lines 151-173): the patch lists produced by the
external slice_matrix are taken as inputs, blank patches are discarded,
one surviving index is drawn by np.random.randint(0, len(patches_img))
(with the draw explicit), and the selected patch pair is promoted to a
batch of size 1.  Padding and the augmentation driver are outside this
stage. -/
def analysis_patchwise_crop_skip [One α] [DecidableEq α] (skip_class : Nat)
    (patches_img patches_seg : List (NDArray α)) (draw : Nat) :
    Except String (NDArray α × NDArray α) :=
  let pr := skipRev (isBlank skip_class) patches_seg.length patches_img patches_seg
  match npRandint 0 pr.1.length draw with
  | Except.error e => Except.error e
  | Except.ok pointer =>
      match pr.1.get? pointer, pr.2.get? pointer with
      | some img, some seg => Except.ok (expandDims0 img, expandDims0 seg)
      | _, _ => Except.error "IndexError: patch index out of range"

/-- Translation of SampleSplitting.analysis_fullimage (sample_splitting.py
lines 213-226).  In training mode both tensors get a leading batch axis of
size 1 and the driver's training transform runs when a driver is set.  In
non-training mode the function body reaches line 226,
`sample.seg_data = seg_data`, whose local `seg_data` was never assigned
(it is only assigned under `if training`), raising UnboundLocalError. -/
def analysis_fullimage (data_aug : Option (DataAug α)) (s : Sample α) (training : Bool) :
    Except String (Sample α) :=
  if training then
    match s.seg_data with
    | some seg =>
        let img_data := expandDims0 s.img_data
        let seg_data := expandDims0 seg
        let pr := match data_aug with
          | some d => d.run img_data seg_data
          | none => (img_data, seg_data)
        Except.ok { s with img_data := pr.1, seg_data := some pr.2 }
    | none => Except.error "TypeError: segmentation data is missing"
  else
    Except.error "UnboundLocalError: local variable seg_data referenced before assignment"

end SampleSplitting

/-! Lemmas about the numpy models. -/

theorem reflectFrom_involutive (axes : List Nat) :
    ∀ (ss vs : List Nat) (i : Nat), idxOk ss vs = true →
      reflectFrom axes i ss (reflectFrom axes i ss vs) = vs := by
  intro ss
  induction ss with
  | nil =>
      intro vs i h
      cases vs with
      | nil => rfl
      | cons v vs => simp [idxOk] at h
  | cons s ss ih =>
      intro vs i h
      cases vs with
      | nil => simp [idxOk] at h
      | cons v vs =>
          simp only [idxOk, Bool.and_eq_true, decide_eq_true_eq] at h
          by_cases hc : i ∈ axes
          · simp [reflectFrom, ih vs (i + 1) h.2, hc]
            omega
          · simp [reflectFrom, ih vs (i + 1) h.2, hc]

theorem nodupB_of_nodup {l : List Nat} (h : l.Nodup) : nodupB l = true := by
  induction l with
  | nil => rfl
  | cons x xs ih =>
      rw [List.nodup_cons] at h
      simp only [nodupB, Bool.and_eq_true, Bool.not_eq_true', decide_eq_false_iff_not]
      exact ⟨h.1, ih h.2⟩

theorem npFlip_ok (axes : List Nat) (x : NDArray α) (hnd : nodupB axes = true)
    (hb : ∀ a ∈ axes, a < x.shape.length) : npFlip axes x = Except.ok (flipArr axes x) := by
  have h1 : (axes.any (fun a => decide (x.shape.length ≤ a))) = false := by
    rw [List.any_eq_false]
    intro a ha
    simp only [decide_eq_true_eq, not_le]
    exact hb a ha
  simp [npFlip, h1, hnd]

theorem flipArr_shape (axes : List Nat) (x : NDArray α) : (flipArr axes x).shape = x.shape := rfl

theorem flipArr_flipArr_data (axes : List Nat) (x : NDArray α) (idx : List Nat)
    (h : idxOk x.shape idx = true) :
    (flipArr axes (flipArr axes x)).data idx = x.data idx := by
  show x.data (reflectFrom axes 0 x.shape (reflectFrom axes 0 x.shape idx)) = x.data idx
  rw [reflectFrom_involutive axes x.shape idx 0 h]

namespace Mirroring

theorem combinations_sublist :
    ∀ (l : List β) (r : Nat) (t : List β), t ∈ combinations l r → t.Sublist l := by
  intro l
  induction l with
  | nil =>
      intro r t ht
      cases r with
      | zero =>
          simp only [combinations, List.mem_singleton] at ht
          subst ht
          exact List.Sublist.refl []
      | succ r => simp [combinations] at ht
  | cons x xs ih =>
      intro r t ht
      cases r with
      | zero =>
          simp only [combinations, List.mem_singleton] at ht
          subst ht
          exact List.nil_sublist _
      | succ r =>
          simp only [combinations, List.mem_append, List.mem_map] at ht
          rcases ht with ⟨t', ht', rfl⟩ | ht
          · exact List.Sublist.cons₂ x (ih r t' ht')
          · exact List.Sublist.cons x (ih (r + 1) t ht)

theorem subsetsBySize_sublist (l : List β) (t : List β) (ht : t ∈ subsetsBySize l) :
    t.Sublist l := by
  simp only [subsetsBySize, List.mem_flatMap, List.mem_range] at ht
  rcases ht with ⟨r, _, ht⟩
  exact combinations_sublist l r t ht

theorem mirrorAxisesOf_sublist_range (axisList : List Bool) :
    (mirrorAxisesOf axisList).Sublist (List.range axisList.length) := by
  have h1 : (axisList.enum.filter (fun p => p.2)).Sublist axisList.enum :=
    List.filter_sublist _
  have h2 := h1.map Prod.fst
  rwa [List.enum_map_fst] at h2

theorem mirrorAxisesOf_nodup (axisList : List Bool) : (mirrorAxisesOf axisList).Nodup :=
  (mirrorAxisesOf_sublist_range axisList).nodup (List.nodup_range _)

theorem length_combinations (l : List β) :
    ∀ r : Nat, (combinations l r).length = Nat.choose l.length r := by
  induction l with
  | nil =>
      intro r
      cases r with
      | zero => rfl
      | succ r => simp [combinations]
  | cons x xs ih =>
      intro r
      cases r with
      | zero => simp [combinations]
      | succ r =>
          simp only [combinations, List.length_append, List.length_map, ih r, ih (r + 1),
            List.length_cons, Nat.choose_succ_succ]

theorem length_subsetsBySize (l : List β) : (subsetsBySize l).length = 2 ^ l.length := by
  unfold subsetsBySize
  rw [List.length_flatMap]
  have h : List.map (List.length ∘ combinations l) (List.range (l.length + 1)) =
      List.map (Nat.choose l.length) (List.range (l.length + 1)) := by
    apply List.map_congr_left
    intro r hr
    exact length_combinations l r
  rw [h]
  exact Nat.sum_range_choose l.length

end Mirroring

theorem collectE_ok (f : β → Except String γ) (g : β → γ) :
    ∀ l : List β, (∀ a ∈ l, f a = Except.ok (g a)) → collectE f l = Except.ok (l.map g) := by
  intro l
  induction l with
  | nil => intro h; rfl
  | cons a l ih =>
      intro h
      have ha := h a (List.mem_cons_self a l)
      have hl := ih (fun b hb => h b (List.mem_cons_of_mem a hb))
      simp only [collectE, ha, hl, List.map_cons]
      rfl

namespace SampleSplitting

theorem length_delAt (l : List β) (i : Nat) (h : i < l.length) :
    (delAt l i).length = l.length - 1 := by
  simp only [delAt, List.length_append, List.length_take, List.length_drop]
  omega

theorem delAt_append (l a : List β) (i : Nat) (h : i < l.length) :
    delAt (l ++ a) i = delAt l i ++ a := by
  simp only [delAt, List.take_append_of_le_length (Nat.le_of_lt h),
    List.drop_append_of_le_length (Nat.succ_le_of_lt h), List.append_assoc]

theorem delAt_concat (l : List β) (x : β) : delAt (l ++ [x]) l.length = l := by
  simp only [delAt, List.take_left]
  have h1 : (l ++ [x]).drop (l.length + 1) = ((l ++ [x]).drop l.length).drop 1 := by
    rw [List.drop_drop]
  rw [h1, List.drop_left]
  simp

theorem skipRev_append (blank : NDArray α → Bool) :
    ∀ (n : Nat) (pimg pseg a b : List (NDArray α)), n ≤ pimg.length → n ≤ pseg.length →
      skipRev blank n (pimg ++ a) (pseg ++ b) =
        ((skipRev blank n pimg pseg).1 ++ a, (skipRev blank n pimg pseg).2 ++ b) := by
  intro n
  induction n with
  | zero => intro pimg pseg a b h1 h2; rfl
  | succ n ih =>
      intro pimg pseg a b h1 h2
      have hn2 : n < pseg.length := h2
      have hn1 : n < pimg.length := h1
      have hget : (pseg ++ b)[n]? = pseg[n]? := List.getElem?_append_left hn2
      have hsome : pseg[n]? = some pseg[n] := List.getElem?_eq_getElem hn2
      simp only [skipRev, hget, hsome]
      by_cases hb : blank pseg[n]
      · simp only [hb, if_true, delAt_append pimg a n hn1, delAt_append pseg b n hn2]
        have hd1 : n ≤ (delAt pimg n).length := by rw [length_delAt pimg n hn1]; omega
        have hd2 : n ≤ (delAt pseg n).length := by rw [length_delAt pseg n hn2]; omega
        exact ih (delAt pimg n) (delAt pseg n) a b hd1 hd2
      · simp only [hb, if_false]
        exact ih pimg pseg a b (Nat.le_of_lt hn1) (Nat.le_of_lt hn2)

theorem skipRev_eq_filter (blank : NDArray α → Bool) :
    ∀ (pseg pimg : List (NDArray α)), pimg.length = pseg.length →
      skipRev blank pseg.length pimg pseg =
        (((pimg.zip pseg).filter (fun q => !(blank q.2))).map Prod.fst,
         ((pimg.zip pseg).filter (fun q => !(blank q.2))).map Prod.snd) := by
  intro pseg
  induction pseg using List.reverseRecOn with
  | nil =>
      intro pimg hlen
      simp only [List.length_nil] at hlen
      rw [List.length_eq_zero] at hlen
      subst hlen
      rfl
  | append_singleton ps p ih =>
      intro pimg hlen
      have hne : pimg ≠ [] := by
        intro hnil
        subst hnil
        simp at hlen
      obtain ⟨pi, q, rfl⟩ : ∃ pi q, pimg = pi ++ [q] := by
        refine ⟨pimg.dropLast, pimg.getLast hne, ?_⟩
        exact (List.dropLast_append_getLast hne).symm
      have hpi : pi.length = ps.length := by
        simp only [List.length_append, List.length_singleton] at hlen
        omega
      have hlen' : (ps ++ [p]).length = ps.length + 1 := by simp
      rw [hlen']
      have hget : (ps ++ [p])[ps.length]? = some p := List.getElem?_concat_length ps p
      simp only [skipRev, hget]
      have hzip : (pi ++ [q]).zip (ps ++ [p]) = pi.zip ps ++ [(q, p)] := by
        rw [List.zip_append hpi]
        rfl
      by_cases hb : blank p
      · simp only [hb, if_true]
        have hdi : delAt (pi ++ [q]) ps.length = pi := by
          rw [← hpi]
          exact delAt_concat pi q
        have hds : delAt (ps ++ [p]) ps.length = ps := delAt_concat ps p
        rw [hdi, hds, ih pi hpi, hzip, List.filter_append]
        have hkeep : List.filter (fun q => !(blank q.2)) [(q, p)] = [] := by
          simp [List.filter, hb]
        rw [hkeep, List.append_nil]
      · simp only [hb, if_false]
        have h1 : ps.length ≤ pi.length := Nat.le_of_eq hpi.symm
        have h2 : ps.length ≤ ps.length := Nat.le_refl _
        rw [skipRev_append blank ps.length pi ps [q] [p] h1 h2, ih pi hpi, hzip,
          List.filter_append]
        have hkeep : List.filter (fun q => !(blank q.2)) [(q, p)] = [(q, p)] := by
          simp [List.filter, hb]
        rw [hkeep, List.map_append, List.map_append]
        rfl

end SampleSplitting

namespace SampleSplitting

theorem dictLookup_filter_out (cache : Cache) (k : String) :
    dictLookup (cache.filter (fun e => !(e.1 == k))) k = none := by
  have h : (cache.filter (fun e => !(e.1 == k))).find? (fun e => e.1 == k) = none := by
    rw [List.find?_eq_none]
    intro x hx
    have hpx := (List.mem_filter.mp hx).2
    simp only [Bool.not_eq_true'] at hpx
    simp [hpx]
  unfold dictLookup
  rw [h]
  rfl

theorem postprocessing_fails_without_shape (cfg : SplitCfg)
    (hm : cfg.method = Method.patchwiseGrid ∨ cfg.method = Method.patchwiseCrop)
    (cache : Cache) (i : Nat) (pred : NDArray α)
    (hnone : dictLookup cache (shapeKey i) = none) :
    isFailure (postprocessing cfg cache i pred) = true := by
  obtain ⟨td, m, ps, ov⟩ := cfg
  have hpop : dictPop cache (shapeKey i) = Except.error ("KeyError: " ++ shapeKey i) := by
    unfold dictPop
    rw [hnone]
  rcases hm with hm | hm <;> simp only at hm <;> subst hm <;>
    · simp only [postprocessing]
      cases hls : dictLookup cache (slicerKey i) with
      | none => simp [hpop, isFailure]
      | some v =>
          cases v with
          | vshape s => simp [isFailure]
          | vslicer sl => simp [hpop, isFailure]

theorem postprocessing_ok_no_shape (cfg : SplitCfg)
    (hm : cfg.method = Method.patchwiseGrid ∨ cfg.method = Method.patchwiseCrop)
    (cache : Cache) (i : Nat) (pred : NDArray α) (c' : Cache) (r : Option (NDArray α))
    (hok : postprocessing cfg cache i pred = Except.ok (c', r)) :
    dictLookup c' (shapeKey i) = none := by
  obtain ⟨td, m, ps, ov⟩ := cfg
  rcases hm with hm | hm <;> simp only at hm <;> subst hm <;>
    · simp only [postprocessing] at hok
      cases hls : dictLookup cache (slicerKey i) with
      | none =>
          rw [hls] at hok
          simp only at hok
          cases hpq : dictLookup cache (shapeKey i) with
          | none =>
              unfold dictPop at hok
              rw [hpq] at hok
              simp at hok
          | some v =>
              unfold dictPop at hok
              rw [hpq] at hok
              cases v with
              | vshape s =>
                  simp only [Except.ok.injEq, Prod.mk.injEq] at hok
                  rw [← hok.1]
                  exact dictLookup_filter_out cache (shapeKey i)
              | vslicer sl => simp at hok
      | some v =>
          rw [hls] at hok
          cases v with
          | vshape s => simp at hok
          | vslicer sl =>
              simp only at hok
              cases hpq : dictLookup cache (shapeKey i) with
              | none =>
                  unfold dictPop at hok
                  rw [hpq] at hok
                  simp at hok
              | some w =>
                  unfold dictPop at hok
                  rw [hpq] at hok
                  cases w with
                  | vshape s' =>
                      simp only [Except.ok.injEq, Prod.mk.injEq] at hok
                      rw [← hok.1]
                      exact dictLookup_filter_out cache (shapeKey i)
                  | vslicer sl' => simp at hok

end SampleSplitting

/-! Concrete objects used to instantiate the claims. -/

/-- A fullimage splitter configuration. -/
def cfgFullEx : SplitCfg := ⟨true, Method.fullimage, [], []⟩

/-- A patchwise-grid splitter configuration. -/
def cfgGridEx : SplitCfg := ⟨true, Method.patchwiseGrid, [2, 2], [0, 0]⟩

/-- A batch-of-one prediction of shape (1, 2). -/
def predFullEx : NDArray Int := ⟨[1, 2], fun idx => Int.ofNat (idx.getD 1 0)⟩

/-- A one-patch prediction stack of shape (1, 2, 2, 1). -/
def predGridEx : NDArray Int := ⟨[1, 2, 2, 1], fun idx => 0⟩

/-- A 2x2 integer image. -/
def arr22Ex : NDArray Int := ⟨[2, 2], fun idx => Int.ofNat (2 * idx.headD 0 + idx.getD 1 0)⟩

/-- A rank-1 integer image of extent 3. -/
def img1dEx : NDArray Int := ⟨[3], fun idx => Int.ofNat (idx.headD 0)⟩

/-- Claim C1: the spec states SampleSplitting.postprocessing returns the
batch-stripped prediction (fullimage) or the reassembled original-shape
array (patchwise).  The code computes those arrays but its body contains no
return statement, so every call returns None; the theorem evaluates the
model at a fullimage call with batch size exactly 1 (the squeeze itself
succeeds and produces shape [2]) and at a patchwise-grid call with a
recorded shape, and both return `none` instead of the computed array. -/
theorem claim_C1_postprocessing_returns_none :
    SampleSplitting.postprocessing cfgFullEx [] 0 predFullEx = Except.ok ([], none) ∧
    (npSqueeze0 predFullEx).map (fun a => a.shape) = Except.ok [2] ∧
    SampleSplitting.postprocessing cfgGridEx
        [(shapeKey 7, CacheVal.vshape [2, 2, 1])] 7 predGridEx =
      Except.ok ([], none) := by
  refine ⟨rfl, rfl, ?_⟩
  rfl

/-- Claim C2: the spec states every patchwise-grid preprocessing call
records the original shape under the sample's identity before returning.
In the code the non-training grid path executes
`self.cache["shape_" + str(index)] = ...` where `index` is an undefined
name, raising NameError, and the training grid path writes nothing to the
cache at all, so the recording never succeeds. -/
theorem claim_C2_grid_never_records (cfg : SplitCfg)
    (hm : cfg.method = Method.patchwiseGrid) (cache : Cache) :
    SampleSplitting.preprocessing cfg cache false =
      Except.error "NameError: name index is not defined" ∧
    SampleSplitting.preprocessing cfg cache true = Except.ok cache := by
  obtain ⟨td, m, ps, ov⟩ := cfg
  simp only at hm
  subst hm
  exact ⟨rfl, rfl⟩

/-- Witness for claim C2 at a concrete configuration and cache. -/
theorem claim_C2_witness :
    SampleSplitting.preprocessing cfgGridEx [] false =
      Except.error "NameError: name index is not defined" ∧
    SampleSplitting.preprocessing cfgGridEx [] true = Except.ok [] :=
  claim_C2_grid_never_records cfgGridEx rfl []

/-- Claim C8: for either patchwise method, postprocessing with no recorded
shape for the sample's identity raises (dict.pop KeyError), and a
successful postprocessing removes the recorded shape entry, so a second
call for the same identity raises as well. -/
theorem claim_C8_missing_shape {α : Type} (cfg : SplitCfg)
    (hm : cfg.method = Method.patchwiseGrid ∨ cfg.method = Method.patchwiseCrop) (i : Nat) :
    (∀ (cache : Cache) (pred : NDArray α),
      dictLookup cache (shapeKey i) = none →
      isFailure (SampleSplitting.postprocessing cfg cache i pred) = true) ∧
    (∀ (cache : Cache) (pred : NDArray α) (c' : Cache) (r : Option (NDArray α)),
      SampleSplitting.postprocessing cfg cache i pred = Except.ok (c', r) →
      ∀ pred2 : NDArray α, isFailure (SampleSplitting.postprocessing cfg c' i pred2) = true) := by
  constructor
  · intro cache pred hnone
    exact SampleSplitting.postprocessing_fails_without_shape cfg hm cache i pred hnone
  · intro cache pred c' r hok pred2
    exact SampleSplitting.postprocessing_fails_without_shape cfg hm c' i pred2
      (SampleSplitting.postprocessing_ok_no_shape cfg hm cache i pred c' r hok)

/-- Witness for claim C8: a patchwise-grid postprocessing call on an empty
cache fails. -/
theorem claim_C8_witness :
    isFailure (SampleSplitting.postprocessing cfgGridEx [] 0 predGridEx) = true :=
  (claim_C8_missing_shape cfgGridEx (Or.inl rfl) 0).1 [] predGridEx rfl

/-- Claim C3: the spec states Mirroring.postprocessing flips the prediction
back whether the recorded "mirroring" entry is a single axis index (the
combine=false path) or a list of axes (the combine=true path), and returns
it unchanged with no entry.  The list and no-entry cases behave as claimed,
but on a recorded bare int the code calls `tuple(int)`, which raises
TypeError instead of flipping. -/
theorem claim_C3_mirror_post_int_tag :
    Mirroring.postprocessing { img_data := arr22Ex, extended := some (MirrorVal.ax 0) }
        arr22Ex = Except.error "TypeError: int object is not iterable" ∧
    Mirroring.postprocessing { img_data := arr22Ex, extended := some (MirrorVal.axes [0]) }
        arr22Ex = Except.ok (flipArr [0] arr22Ex) ∧
    Mirroring.postprocessing { img_data := arr22Ex } arr22Ex = Except.ok arr22Ex := by
  exact ⟨rfl, rfl, rfl⟩

/-- A sample with a 2x2 image and a 2x2 segmentation, used as a concrete
input. -/
def sampleFullEx : Sample Int := { img_data := arr22Ex, seg_data := some arr22Ex }

/-- Claim C4: the spec states full-image preprocessing adds a leading batch
axis of size 1 to the image (and to the segmentation when training) and
succeeds in both training and non-training mode.  Training mode behaves as
claimed (including running a configured driver's training transform), but
every non-training call raises: line 226 of sample_splitting.py assigns
`sample.seg_data = seg_data` and the local `seg_data` is only ever bound
under `if training`. -/
theorem claim_C4_fullimage_modes {α : Type} (s : Sample α) (seg : NDArray α)
    (hseg : s.seg_data = some seg) :
    (SampleSplitting.analysis_fullimage none s true).map
        (fun t => (t.img_data.shape, t.seg_data.map (fun a => a.shape))) =
      Except.ok (1 :: s.img_data.shape, some (1 :: seg.shape)) ∧
    (∀ d : DataAug α, SampleSplitting.analysis_fullimage (some d) s true =
      Except.ok { s with
        img_data := (d.run (expandDims0 s.img_data) (expandDims0 seg)).1,
        seg_data := some (d.run (expandDims0 s.img_data) (expandDims0 seg)).2 }) ∧
    (∀ d : Option (DataAug α),
      isFailure (SampleSplitting.analysis_fullimage d s false) = true) := by
  refine ⟨?_, ?_, ?_⟩
  · simp [SampleSplitting.analysis_fullimage, hseg, expandDims0, Except.map]
  · intro d
    simp [SampleSplitting.analysis_fullimage, hseg]
  · intro d
    rfl

/-- Witness for claim C4 at a concrete sample. -/
theorem claim_C4_witness :
    (SampleSplitting.analysis_fullimage none sampleFullEx true).map
        (fun t => (t.img_data.shape, t.seg_data.map (fun a => a.shape))) =
      Except.ok (1 :: sampleFullEx.img_data.shape, some (1 :: arr22Ex.shape)) ∧
    isFailure (SampleSplitting.analysis_fullimage none sampleFullEx false) = true :=
  ⟨(claim_C4_fullimage_modes sampleFullEx arr22Ex rfl).1,
   (claim_C4_fullimage_modes sampleFullEx arr22Ex rfl).2.2 none⟩

/-- Claim C6: the spec (and the class docstring) state that axis_flags
entries at indices at or above the image rank are ignored, as if the list
were truncated to the rank.  The code builds the flagged-axis list with no
rank truncation and np.flip then raises AxisError on the out-of-rank axis:
on a rank-1 image with axis_flags = [false, true], both the combine=false
and the combine=true paths fail instead of emitting the truncated-behaviour
samples. -/
theorem claim_C6_out_of_rank_axis :
    isFailure (Mirroring.preprocessing [false, true] false { img_data := img1dEx }) = true ∧
    isFailure (Mirroring.preprocessing [false, true] true { img_data := img1dEx }) = true := by
  exact ⟨rfl, rfl⟩

/-- Claim C5: with all flagged axes below the image rank, combine=true
preprocessing emits exactly 2^k samples, one per subset of the flagged
axes in increasing-size-then-index order (the subsetsBySize enumeration),
each flipped along its subset and tagged with the subset list (empty list
for the unflipped clone); combine=false emits the original sample first
and then one clone per flagged axis in order, flipped along that single
axis and tagged with the bare axis, 1 + k samples in total. -/
theorem claim_C5_mirror_enumeration {α : Type} (s : Sample α) (axisList : List Bool)
    (hv : ∀ a ∈ Mirroring.mirrorAxisesOf axisList, a < s.img_data.shape.length) :
    Mirroring.preprocessing axisList true s = Except.ok
      ((Mirroring.subsetsBySize (Mirroring.mirrorAxisesOf axisList)).map (fun t =>
        { s with img_data := flipArr t s.img_data, extended := some (MirrorVal.axes t) })) ∧
    ((Mirroring.subsetsBySize (Mirroring.mirrorAxisesOf axisList)).map (fun t =>
        { s with img_data := flipArr t s.img_data, extended := some (MirrorVal.axes t) })).length =
      2 ^ (Mirroring.mirrorAxisesOf axisList).length ∧
    Mirroring.preprocessing axisList false s = Except.ok
      (s :: (Mirroring.mirrorAxisesOf axisList).map (fun a =>
        { s with img_data := flipArr [a] s.img_data, extended := some (MirrorVal.ax a) })) ∧
    (s :: (Mirroring.mirrorAxisesOf axisList).map (fun a =>
        { s with img_data := flipArr [a] s.img_data, extended := some (MirrorVal.ax a) })).length =
      1 + (Mirroring.mirrorAxisesOf axisList).length := by
  refine ⟨?_, ?_, ?_, ?_⟩
  · simp only [Mirroring.preprocessing, Bool.not_true, Bool.false_eq_true, if_false]
    apply collectE_ok
    intro t ht
    have hsub := Mirroring.subsetsBySize_sublist (Mirroring.mirrorAxisesOf axisList) t ht
    have hnd : nodupB t = true :=
      nodupB_of_nodup (hsub.nodup (Mirroring.mirrorAxisesOf_nodup axisList))
    have hb : ∀ a ∈ t, a < s.img_data.shape.length := fun a ha => hv a (hsub.subset ha)
    rw [npFlip_ok t s.img_data hnd hb]
    rfl
  · rw [List.length_map, Mirroring.length_subsetsBySize]
  · simp only [Mirroring.preprocessing, Bool.not_false, if_true]
    have hco : collectE (fun a =>
        (npFlip [a] s.img_data).map (fun im =>
          { s with img_data := im, extended := some (MirrorVal.ax a) }))
        (Mirroring.mirrorAxisesOf axisList) = Except.ok
        ((Mirroring.mirrorAxisesOf axisList).map (fun a =>
          { s with img_data := flipArr [a] s.img_data, extended := some (MirrorVal.ax a) })) := by
      apply collectE_ok
      intro a ha
      have hnd : nodupB [a] = true := by simp [nodupB]
      have hb : ∀ b ∈ [a], b < s.img_data.shape.length := by
        intro b hbm
        have hba : b = a := List.mem_singleton.mp hbm
        rw [hba]
        exact hv a ha
      rw [npFlip_ok [a] s.img_data hnd hb]
      rfl
    rw [hco]
    rfl
  · simp only [List.length_cons, List.length_map]
    omega

/-- Witness for claim C5: on a 2x2 image with both axes flagged, the
combine=true path yields 4 samples and the combine=false path yields 3. -/
theorem claim_C5_witness :
    (Mirroring.preprocessing [true, true] true { img_data := arr22Ex }).map List.length =
      Except.ok 4 ∧
    (Mirroring.preprocessing [true, true] false { img_data := arr22Ex }).map List.length =
      Except.ok 3 := by
  have h := claim_C5_mirror_enumeration { img_data := arr22Ex } [true, true] (by decide)
  constructor
  · rw [h.1]
    show Except.ok _ = _
    rw [h.2.1]
    rfl
  · rw [h.2.2.1]
    show Except.ok _ = _
    rw [h.2.2.2]
    rfl

/-- Claim C9: for any image and any subset of the flagged axes produced by
the combine=true enumeration (all flagged axes below the image rank),
flipping along the subset as preprocessing does and then applying
Mirroring.postprocessing with the subset recorded in the mirroring
metadata reproduces the original image exactly: same shape and equal
values at every in-bounds index. -/
theorem claim_C9_mirror_roundtrip {α : Type} (x : NDArray α) (axisList : List Bool)
    (t : List Nat) (s : Sample α)
    (ht : t ∈ Mirroring.subsetsBySize (Mirroring.mirrorAxisesOf axisList))
    (hv : ∀ a ∈ Mirroring.mirrorAxisesOf axisList, a < x.shape.length)
    (hs : s.extended = some (MirrorVal.axes t)) :
    npFlip t x = Except.ok (flipArr t x) ∧
    Mirroring.postprocessing s (flipArr t x) = Except.ok (flipArr t (flipArr t x)) ∧
    (flipArr t (flipArr t x)).shape = x.shape ∧
    ∀ idx, idxOk x.shape idx = true → (flipArr t (flipArr t x)).data idx = x.data idx := by
  have hsub := Mirroring.subsetsBySize_sublist (Mirroring.mirrorAxisesOf axisList) t ht
  have hnd : nodupB t = true :=
    nodupB_of_nodup (hsub.nodup (Mirroring.mirrorAxisesOf_nodup axisList))
  have hb : ∀ a ∈ t, a < x.shape.length := fun a ha => hv a (hsub.subset ha)
  have h1 := npFlip_ok t x hnd hb
  have h2 := npFlip_ok t (flipArr t x) hnd hb
  refine ⟨h1, ?_, rfl, ?_⟩
  · simp only [Mirroring.postprocessing, hs]
    exact h2
  · intro idx hidx
    exact flipArr_flipArr_data t x idx hidx

/-- Witness for claim C9 on the 2x2 image with the full subset of flagged
axes, checked additionally at the concrete index (1, 0). -/
theorem claim_C9_witness :
    npFlip [0, 1] arr22Ex = Except.ok (flipArr [0, 1] arr22Ex) ∧
    (flipArr [0, 1] (flipArr [0, 1] arr22Ex)).data [1, 0] = arr22Ex.data [1, 0] := by
  have h := claim_C9_mirror_roundtrip arr22Ex [true, true] [0, 1]
    { img_data := arr22Ex, extended := some (MirrorVal.axes [0, 1]) } (by decide) (by decide) rfl
  exact ⟨h.1, h.2.2.2 [1, 0] (by decide)⟩

/-- The lock-step filtered patch pairs the spec describes: the pairs of
image and segmentation patches whose segmentation is not blank at the
skip class. -/
def keptOf [One α] [DecidableEq α] (skip_class : Nat)
    (patches_img patches_seg : List (NDArray α)) : List (NDArray α × NDArray α) :=
  (patches_img.zip patches_seg).filter (fun q => !(SampleSplitting.isBlank skip_class q.2))

/-- Claim C7: with skip_blanks enabled and training true, the
highest-index-down deletion loop removes exactly the blank patches from
both lists in lock-step, the surviving patches are what gets stacked (the
stage behaves exactly as the skip-disabled stage on the filtered lists),
the stacked tensor's batch extent is the survivor count, and the survivor
count never exceeds the patch count with skip_blanks disabled. -/
theorem claim_C7_blank_skip {α : Type} [One α] [DecidableEq α] (skip_class : Nat)
    (patches_img patches_seg : List (NDArray α))
    (hlen : patches_img.length = patches_seg.length) :
    SampleSplitting.skipRev (SampleSplitting.isBlank skip_class) patches_seg.length
        patches_img patches_seg =
      ((keptOf skip_class patches_img patches_seg).map Prod.fst,
       (keptOf skip_class patches_img patches_seg).map Prod.snd) ∧
    ((keptOf skip_class patches_img patches_seg).map Prod.fst).length ≤ patches_img.length ∧
    SampleSplitting.analysis_patchwise_grid_train true skip_class patches_img patches_seg =
      SampleSplitting.analysis_patchwise_grid_train false skip_class
        ((keptOf skip_class patches_img patches_seg).map Prod.fst)
        ((keptOf skip_class patches_img patches_seg).map Prod.snd) ∧
    ∀ ti ts,
      SampleSplitting.analysis_patchwise_grid_train true skip_class patches_img patches_seg =
        Except.ok (ti, ts) →
      ti.shape.headD 0 = (keptOf skip_class patches_img patches_seg).length := by
  have hmain := SampleSplitting.skipRev_eq_filter (SampleSplitting.isBlank skip_class)
    patches_seg patches_img hlen
  have h1 : SampleSplitting.skipRev (SampleSplitting.isBlank skip_class) patches_seg.length
      patches_img patches_seg =
      ((keptOf skip_class patches_img patches_seg).map Prod.fst,
       (keptOf skip_class patches_img patches_seg).map Prod.snd) := by
    rw [hmain]
    rfl
  have h2 : ((keptOf skip_class patches_img patches_seg).map Prod.fst).length ≤
      patches_img.length := by
    rw [List.length_map]
    calc (keptOf skip_class patches_img patches_seg).length
        ≤ (patches_img.zip patches_seg).length := List.length_filter_le _ _
      _ ≤ patches_img.length := by
          rw [List.length_zip]
          exact Nat.min_le_left _ _
  have hfq : ((false : Bool) = true) = False := by simp
  have htq : ((true : Bool) = true) = True := by simp
  have h3 : SampleSplitting.analysis_patchwise_grid_train true skip_class
      patches_img patches_seg =
      SampleSplitting.analysis_patchwise_grid_train false skip_class
        ((keptOf skip_class patches_img patches_seg).map Prod.fst)
        ((keptOf skip_class patches_img patches_seg).map Prod.snd) := by
    simp only [SampleSplitting.analysis_patchwise_grid_train, hfq, htq, if_true, if_false, h1]
  have hfalse : SampleSplitting.analysis_patchwise_grid_train false skip_class
      ((keptOf skip_class patches_img patches_seg).map Prod.fst)
      ((keptOf skip_class patches_img patches_seg).map Prod.snd) =
      (match npStack ((keptOf skip_class patches_img patches_seg).map Prod.fst),
          npStack ((keptOf skip_class patches_img patches_seg).map Prod.snd) with
        | Except.ok img_data, Except.ok seg_data => Except.ok (img_data, seg_data)
        | Except.error e, _ => Except.error e
        | _, Except.error e => Except.error e) := by
    simp only [SampleSplitting.analysis_patchwise_grid_train, hfq, if_false]
  refine ⟨h1, h2, h3, ?_⟩
  intro ti ts hok
  rw [h3, hfalse] at hok
  cases hk : npStack ((keptOf skip_class patches_img patches_seg).map Prod.fst) with
  | error e => rw [hk] at hok; simp at hok
  | ok v =>
      rw [hk] at hok
      cases hk2 : npStack ((keptOf skip_class patches_img patches_seg).map Prod.snd) with
      | error e => rw [hk2] at hok; simp at hok
      | ok w =>
          rw [hk2] at hok
          simp only [Except.ok.injEq, Prod.mk.injEq] at hok
          cases hkept : (keptOf skip_class patches_img patches_seg).map Prod.fst with
          | nil => rw [hkept] at hk; simp [npStack] at hk
          | cons x xs =>
              rw [hkept] at hk
              simp only [npStack] at hk
              by_cases hall : xs.all (fun y => y.shape == x.shape)
              · rw [if_pos hall] at hk
                have hv : v = ⟨(x :: xs).length :: x.shape,
                    fun idx => ((x :: xs).getD (idx.headD 0) x).data idx.tail⟩ :=
                  ((Except.ok.injEq _ _).mp hk).symm
                rw [← hok.1, hv]
                show (x :: xs).length = _
                rw [← hkept, List.length_map]
              · rw [if_neg hall] at hk
                simp at hk

/-- Claim C10: with the patchwise-crop method and skip_blanks enabled, if
every patch of the sample is blank then the deletion loop empties both
patch lists and np.random.randint(0, 0) raises ValueError, so the stage
fails rather than returning a batch. -/
theorem claim_C10_all_blank_crop {α : Type} [One α] [DecidableEq α] (skip_class : Nat)
    (patches_img patches_seg : List (NDArray α)) (draw : Nat)
    (hlen : patches_img.length = patches_seg.length)
    (hblank : ∀ p ∈ patches_seg, SampleSplitting.isBlank skip_class p = true) :
    isFailure (SampleSplitting.analysis_patchwise_crop_skip skip_class
      patches_img patches_seg draw) = true := by
  have hmain := SampleSplitting.skipRev_eq_filter (SampleSplitting.isBlank skip_class)
    patches_seg patches_img hlen
  have hnil : (patches_img.zip patches_seg).filter
      (fun q => !(SampleSplitting.isBlank skip_class q.2)) = [] := by
    rw [List.filter_eq_nil_iff]
    intro q hq
    have hq2 := (List.of_mem_zip hq).2
    simp [hblank q.2 hq2]
  simp only [SampleSplitting.analysis_patchwise_crop_skip, hmain, hnil, List.map_nil]
  rfl

/-- A 1x1 segmentation patch whose skip-class channel is identically 1
(a blank patch). -/
def blankP : NDArray Int := ⟨[1, 1], fun idx => 1⟩

/-- A 1x1 segmentation patch with a foreground voxel at the skip-class
channel (not blank). -/
def fgP : NDArray Int := ⟨[1, 1], fun idx => 0⟩

/-- Witness for claim C7 on a two-patch list with one blank patch. -/
theorem claim_C7_witness :
    SampleSplitting.skipRev (SampleSplitting.isBlank 0)
        ([blankP, fgP] : List (NDArray Int)).length [blankP, fgP] [blankP, fgP] =
      ((keptOf 0 [blankP, fgP] [blankP, fgP]).map Prod.fst,
       (keptOf 0 [blankP, fgP] [blankP, fgP]).map Prod.snd) ∧
    ((keptOf 0 [blankP, fgP] [blankP, fgP]).map Prod.fst).length ≤
      ([blankP, fgP] : List (NDArray Int)).length :=
  ⟨(claim_C7_blank_skip 0 [blankP, fgP] [blankP, fgP] rfl).1,
   (claim_C7_blank_skip 0 [blankP, fgP] [blankP, fgP] rfl).2.1⟩

/-- Witness for claim C10 on a single all-blank patch. -/
theorem claim_C10_witness :
    isFailure (SampleSplitting.analysis_patchwise_crop_skip 0
      ([blankP] : List (NDArray Int)) [blankP] 5) = true :=
  claim_C10_all_blank_crop 0 [blankP] [blankP] 5 rfl (by decide)
